import Mathlib

/-!
Verification of the CSP subtool converter's SUT builder
(CSPDatabaseBuilder in server.py) against its specification.

Byte sequences are modelled as lists of naturals below 256; SQLite rows
are modelled as Lean structures, NULL columns as Option; the module-level
random source is an explicit stream of naturals consumed positionally.
-/

namespace Sut

/-- Little-endian packing of a 32-bit unsigned value, as in struct.pack with format <I. -/
def u32le (n : Nat) : List Nat :=
  [n % 256, n / 256 % 256, n / 65536 % 256, n / 16777216 % 256]

/-- Big-endian packing of a 32-bit unsigned value, as in struct.pack with format >I. -/
def u32be (n : Nat) : List Nat :=
  [n / 16777216 % 256, n / 65536 % 256, n / 256 % 256, n % 256]

/-- UTF-16LE code units of one character, surrogate pairs for astral code points. -/
def utf16leChar (c : Char) : List Nat :=
  let n := c.toNat
  if n < 65536 then [n % 256, n / 256]
  else
    let m := n - 65536
    let hi := 55296 + m / 1024
    let lo := 56320 + m % 1024
    [hi % 256, hi / 256, lo % 256, lo / 256]

/-- UTF-16LE encoding of a string, as in Python str.encode with utf-16le. -/
def utf16le (s : String) : List Nat :=
  (s.data.map utf16leChar).flatten

/-- UTF-8 bytes of one character. -/
def utf8Char (c : Char) : List Nat :=
  let n := c.toNat
  if n < 128 then [n]
  else if n < 2048 then [192 + n / 64, 128 + n % 64]
  else if n < 65536 then [224 + n / 4096, 128 + n / 64 % 64, 128 + n % 64]
  else [240 + n / 262144, 128 + n / 4096 % 64, 128 + n / 64 % 64, 128 + n % 64]

/-- UTF-8 encoding of a string. -/
def utf8 (s : String) : List Nat :=
  (s.data.map utf8Char).flatten

/-- An IEEE-754 single-precision value, represented by its 32-bit pattern. -/
structure F32 where
  bits : Nat
deriving DecidableEq, Repr

/-- Little-endian bytes of a single-precision float, as in struct.pack with format <f. -/
def f32le (x : F32) : List Nat := u32le x.bits

/-- The bit pattern of 0.0f. -/
def f32zero : F32 := ⟨0⟩

/-- The bit pattern of 1.0f. -/
def f32one : F32 := ⟨1065353216⟩

/-- The random source: a stream of naturals consumed positionally, standing for
the module-level random generator of the Python code. -/
abbrev Rng := Nat → Nat

/-- The stream after k draws have been consumed. -/
def rngDrop (g : Rng) (k : Nat) : Rng := fun n => g (n + k)

/-- CSPDatabaseBuilder method generating a 16-byte binary UUID: sixteen draws,
each reduced to a byte, as random.randint(0, 255) sixteen times. -/
def generate_uuid (g : Rng) : List Nat :=
  (List.range 16).map fun i => g i % 256

/-- Lowercase hex digit table used by the material UUID generator. -/
def hexDigit (n : Nat) : Char :=
  "0123456789abcdef".data.getD n 'x'

/-- A run of len random lowercase hex characters starting at stream offset off. -/
def hexRun (g : Rng) (off len : Nat) : String :=
  ⟨(List.range len).map fun i => hexDigit (g (off + i) % 16)⟩

/-- CSPDatabaseBuilder method generating the dashed 8-4-4-4-12 material UUID
string; consumes 32 draws (one per hex character). -/
def generate_material_uuid (g : Rng) : String :=
  hexRun g 0 8 ++ "-" ++ hexRun g 8 4 ++ "-" ++ hexRun g 12 4 ++ "-" ++
    hexRun g 16 4 ++ "-" ++ hexRun g 20 12

/-- The 124-byte default pressure graph blob returned by the builder's
pressure-graph method (the hex literal extracted from sample.sut). -/
def default_pressure_graph : List Nat :=
  [0, 0, 0, 12, 0, 0, 0, 7, 0, 0, 0, 16, 0, 0, 0, 0,
   0, 0, 0, 0, 0, 0, 0, 0, 0, 0, 0, 0, 63, 190, 96, 0,
   0, 0, 0, 0, 63, 158, 0, 0, 0, 0, 0, 0, 63, 214, 196, 0,
   0, 0, 0, 0, 63, 204, 144, 0, 0, 0, 0, 0, 63, 226, 248, 0,
   0, 0, 0, 0, 63, 229, 192, 0, 0, 0, 0, 0, 63, 230, 196, 0,
   0, 0, 0, 0, 63, 240, 0, 0, 0, 0, 0, 0, 63, 230, 196, 0,
   0, 0, 0, 0, 63, 240, 0, 0, 0, 0, 0, 0, 63, 240, 0, 0,
   0, 0, 0, 0, 63, 240, 0, 0, 0, 0, 0, 0]

/-- The builder's effector-blob encoder: None when the flag is falsy or the
curve list is empty; otherwise a little-endian header (1, 0), the point count
after truncation to the first 10 points, then the point pairs as f32 LE. -/
def encode_effector_blob (enabled : Bool) (curve_points : List (F32 × F32)) :
    Option (List Nat) :=
  if enabled = false ∨ curve_points = [] then none
  else
    let points := curve_points.take 10
    some (u32le 1 ++ u32le 0 ++ u32le points.length ++
      (points.map fun p => f32le p.1 ++ f32le p.2).flatten)

/-- The default linear pressure curve used by the brush inserter. -/
def default_curve : List (F32 × F32) := [(f32zero, f32zero), (f32one, f32one)]

/-- The builder's BrushPatternImageArray encoder.  Without a material it packs
the four header words big-endian (8, 1, 0, 0); with a material it concatenates
a big-endian header (8, 1, data length, 132), the UTF-16LE material reference
with two-byte terminator, big-endian flag words (2, 20), the UTF-16LE brush
name with two-byte terminator, and the raw PNG bytes. -/
def encode_brush_pattern_array (brush_name : String) (material_uuid : Option String)
    (png_data : Option (List Nat)) : List Nat :=
  match material_uuid, png_data with
  | some mu, some png =>
    if mu = "" ∨ png = [] then u32be 8 ++ u32be 1 ++ u32be 0 ++ u32be 0
    else
      let utf16_ref := utf16le (".:12:45:" ++ mu ++ ":data:material_0.layer") ++ [0, 0]
      let type_flags := u32be 2 ++ u32be 20
      let name_data := utf16le brush_name ++ [0, 0]
      let data_length := utf16_ref.length + type_flags.length + name_data.length + png.length
      u32be 8 ++ u32be 1 ++ u32be data_length ++ u32be 132 ++
        utf16_ref ++ type_flags ++ name_data ++ png
  | _, _ => u32be 8 ++ u32be 1 ++ u32be 0 ++ u32be 0

/-- ASCII bytes of a string (used for TAR header fields and magics). -/
def ascii (s : String) : List Nat := s.data.map Char.toNat

/-- Pad a byte list on the right with the byte pad up to width w. -/
def padTo (w pad : Nat) (bs : List Nat) : List Nat :=
  bs ++ List.replicate (w - bs.length) pad

/-- ASCII octal digits of a natural, most significant first. -/
def octalDigits (n : Nat) : List Nat := ascii ⟨Nat.toDigits 8 n⟩

/-- Modelled from the spec: a zero-padded octal TAR header field of the given
total width, terminated by a NUL byte (section on the TAR writer). -/
def octalField (n width : Nat) : List Nat :=
  List.replicate (width - 1 - (octalDigits n).length) 48 ++ octalDigits n ++ [0]

/-- Modelled from the spec: the TAR checksum field, six octal digits, NUL, space. -/
def checksumField (n : Nat) : List Nat :=
  List.replicate (6 - (octalDigits n).length) 48 ++ octalDigits n ++ [0, 32]

/-- Modelled from the spec: a minimal USTAR member header, 512 bytes, with the
checksum computed over the header with the checksum field blanked to spaces. -/
def tarHeader (name : String) (size mtime : Nat) : List Nat :=
  let pre := padTo 100 0 (ascii name) ++ octalField 420 8 ++ octalField 0 8 ++
    octalField 0 8 ++ octalField size 12 ++ octalField mtime 12
  let post := [48] ++ List.replicate 355 0
  let cks := (pre ++ List.replicate 8 32 ++ post).foldl (· + ·) 0
  pre ++ checksumField cks ++ post

/-- The next multiple of 512 at or above n. -/
def roundUp512 (n : Nat) : Nat := (n + 511) / 512 * 512

/-- Modelled from the spec: one TAR member, header plus payload padded to a
512-byte block boundary. -/
def tarMember (name : String) (data : List Nat) (mtime : Nat) : List Nat :=
  tarHeader name data.length mtime ++ padTo (roundUp512 data.length) 0 data

/-- Modelled from the spec: a TAR archive of the given members followed by two
zero blocks. -/
def tarArchive (members : List (String × List Nat)) (mtime : Nat) : List Nat :=
  (members.map fun m => tarMember m.1 m.2 mtime).flatten ++ List.replicate 1024 0

/-- Modelled from the spec: the CLYA layer container of layer_encoder (absent
from src), a CLYA magic, little-endian version and TAR length, then a TAR
holding texture.png. -/
def clya (png : List Nat) (clock : Nat) : List Nat :=
  let tar := tarArchive [("texture.png", png)] clock
  ascii "CLYA" ++ u32le 65536 ++ u32le tar.length ++ tar

/-- Modelled from the spec: XML escaping for the material name, replacing the
ampersand and angle brackets with entities and stripping control characters. -/
def xmlEscapeChar (c : Char) : String :=
  if c = '&' then "&amp;"
  else if c = '<' then "&lt;"
  else if c = '>' then "&gt;"
  else if c.toNat < 32 then ""
  else String.singleton c

/-- Modelled from the spec: XML escaping applied across a string. -/
def xmlEscape (s : String) : String :=
  (s.data.map xmlEscapeChar).foldl (· ++ ·) ""

/-- Modelled from the spec: the minimal material.xml document. -/
def materialXml (name uuid_string : String) : String :=
  "<?xml version=\"1.0\" encoding=\"UTF-8\"?><material version=\"1\"><name>" ++
    xmlEscape name ++ "</name><uuid>" ++ uuid_string ++
    "</uuid><type>brush_shape</type></material>"

/-- Modelled from the spec: materialfile_builder.create_material_filedata
(absent from src), the MaterialFile FileData TAR holding the layer blob and
the material.xml document. -/
def create_material_filedata (png : List Nat) (brush_name material_uuid : String)
    (clock : Nat) : List Nat :=
  tarArchive [("material_0.layer", clya png clock),
              ("material.xml", utf8 (materialXml brush_name material_uuid))] clock

/-- The Manager row; every SQLite column the builder writes, NULL-free here
because the builder always supplies all nine values. -/
structure ManagerRow where
  toolType : Nat
  version : Nat
  rootUuid : List Nat
  currentNodeUuid : List Nat
  maxVariantID : Nat
  commonVariantID : Nat
  objectNodeUuid : List Nat
  pressureGraph : List Nat
  savedCount : Nat
deriving DecidableEq, Repr

/-- A Node row; columns the builder never writes on a given row are None. -/
structure NodeRow where
  nodeUuid : List Nat
  nodeName : String
  nodeLock : Option Nat
  nodeHidden : Option Nat
  nodeInputOp : Option Nat
  nodeOutputOp : Option Nat
  nodeRangeOp : Option Nat
  nodeIcon : Option Nat
  nodeIconColor : Option Nat
  nodeNextUuid : Option (List Nat)
  nodeFirstChildUuid : Option (List Nat)
  nodeVariantID : Option Nat
  nodeInitVariantID : Option Nat
deriving DecidableEq, Repr

/-- A Variant row restricted to the columns the builder populates; REAL-typed
columns carry the integral settings values the request supplies. -/
structure VariantRow where
  variantID : Nat
  opacity : Nat
  antiAlias : Nat
  compositeMode : Nat
  brushSize : Nat
  brushSizeUnit : Nat
  brushSizeEffector : Option (List Nat)
  brushFlow : Nat
  brushFlowEffector : Option (List Nat)
  brushHardness : Nat
  brushInterval : Nat
  brushThickness : Nat
  brushRotation : Nat
  brushUsePatternImage : Nat
  brushPatternImageArray : List Nat
deriving DecidableEq, Repr

/-- A MaterialFile row. -/
structure MaterialFileRow where
  installFolder : Nat
  originalPath : String
  oldMaterial : Option Nat
  fileData : List Nat
  catalogPath : String
  materialUuid : Option String
deriving DecidableEq, Repr

/-- The four tables of an emitted .sut database, rows in insertion order. -/
structure SutDb where
  manager : ManagerRow
  nodes : List NodeRow
  variants : List VariantRow
  materialFiles : List MaterialFileRow
deriving DecidableEq, Repr

/-- A normalized brush input as produced by the image processor. -/
structure Brush where
  name : String
  width : Nat
  height : Nat
  image_data : Option (List Nat)
deriving DecidableEq, Repr

/-- The enumerated settings map with the builder's defaults. -/
structure Settings where
  opacity : Nat := 100
  size : Nat := 50
  hardness : Nat := 50
  spacing : Nat := 10
  angle : Nat := 0
  sizePressure : Bool := false
  opacityPressure : Bool := false
deriving DecidableEq, Repr

/-- The brush image bytes under Python truthiness: an absent or empty bytes
value counts as no image. -/
def pngOf (b : Brush) : Option (List Nat) :=
  match b.image_data with
  | some p => if p = [] then none else some p
  | none => none

/-- The Manager row as first inserted, before the final update: ToolType 0,
Version 126, a single zero byte for CurrentNodeUuid, MaxVariantID 1000,
CommonVariantID 1001, the default pressure graph, SavedCount 0. -/
def insert_manager (root_uuid : List Nat) : ManagerRow :=
  { toolType := 0, version := 126, rootUuid := root_uuid, currentNodeUuid := [0],
    maxVariantID := 1000, commonVariantID := 1001, objectNodeUuid := root_uuid,
    pressureGraph := default_pressure_graph, savedCount := 0 }

/-- The root Node row as inserted. -/
def insert_root_node (root_uuid : List Nat) (package_name : String) : NodeRow :=
  { nodeUuid := root_uuid, nodeName := package_name, nodeLock := some 0,
    nodeHidden := some 0, nodeInputOp := none, nodeOutputOp := none,
    nodeRangeOp := none, nodeIcon := none, nodeIconColor := none,
    nodeNextUuid := none, nodeFirstChildUuid := none,
    nodeVariantID := none, nodeInitVariantID := none }

/-- The MaterialFile row inserted for a brush with image data. -/
def insert_material_file (material_uuid : String) (png : List Nat)
    (brush_name : String) (clock : Nat) : MaterialFileRow :=
  { installFolder := 0,
    originalPath := ".:" ++ material_uuid ++ ":data:material_0.layer",
    oldMaterial := none,
    fileData := create_material_filedata png brush_name material_uuid clock,
    catalogPath := ".:" ++ material_uuid,
    materialUuid := none }

/-- One Variant row as built from the shared variant_data tuple. -/
def variantRow (vid : Nat) (st : Settings) (b : Brush) (mu : Option String)
    (png : Option (List Nat)) : VariantRow :=
  { variantID := vid,
    opacity := st.opacity,
    antiAlias := 1,
    compositeMode := 0,
    brushSize := st.size,
    brushSizeUnit := 0,
    brushSizeEffector := encode_effector_blob st.sizePressure default_curve,
    brushFlow := st.opacity,
    brushFlowEffector := encode_effector_blob st.opacityPressure default_curve,
    brushHardness := st.hardness,
    brushInterval := st.spacing,
    brushThickness := 100,
    brushRotation := st.angle,
    brushUsePatternImage := match mu with
      | some s => if s = "" then 0 else 1
      | none => 0,
    brushPatternImageArray := encode_brush_pattern_array b.name mu png }

/-- The brush Node row as inserted, NodeNextUuid NULL until a later brush
links back to it. -/
def brushNodeRow (b : Brush) (node_uuid : List Nat) (vid ivid : Nat) : NodeRow :=
  { nodeUuid := node_uuid, nodeName := b.name, nodeLock := some 0,
    nodeHidden := some 0, nodeInputOp := some 10, nodeOutputOp := some 10,
    nodeRangeOp := some 0, nodeIcon := some 128, nodeIconColor := some 0,
    nodeNextUuid := none, nodeFirstChildUuid := none,
    nodeVariantID := some vid, nodeInitVariantID := some ivid }

/-- The SQL update setting NodeNextUuid on every row whose NodeUuid matches. -/
def updateNodeNext (nodes : List NodeRow) (target next_uuid : List Nat) :
    List NodeRow :=
  nodes.map fun n =>
    if n.nodeUuid = target then { n with nodeNextUuid := some next_uuid } else n

/-- The SQL update setting NodeFirstChildUuid on every row whose NodeUuid
matches. -/
def updateFirstChild (nodes : List NodeRow) (target child : List Nat) :
    List NodeRow :=
  nodes.map fun n =>
    if n.nodeUuid = target then { n with nodeFirstChildUuid := some child } else n

/-- The mutable state of the brush-insertion loop in create_sut_file. -/
structure BuildState where
  nodes : List NodeRow
  variants : List VariantRow
  materialFiles : List MaterialFileRow
  counter : Nat
  prev : Option (List Nat)
  firstUuid : Option (List Nat)
  firstVar : Option Nat
  g : Rng

/-- Stream draws consumed while inserting one brush: 16 for the node UUID and
32 more for the material UUID when the brush has image data. -/
def rngUsed (b : Brush) : Nat :=
  16 + match pngOf b with | some _ => 32 | none => 0

/-- One iteration of the brush loop: allocate the two variant IDs by double
pre-increment, mint the node UUID, mint the material UUID and insert the
MaterialFile row when image data is present, append the two Variant rows and
the Node row, and link the previous node to this one. -/
def insert_brush (st : Settings) (clock : Nat) (b : Brush) (s : BuildState) :
    BuildState :=
  let current_variant_id := s.counter + 1
  let init_variant_id := s.counter + 2
  let node_uuid := generate_uuid s.g
  let g1 := rngDrop s.g 16
  let mu : Option String := (pngOf b).map fun _ => generate_material_uuid g1
  let mats := match pngOf b, mu with
    | some png, some u => s.materialFiles ++ [insert_material_file u png b.name clock]
    | _, _ => s.materialFiles
  let variants := s.variants ++
    [variantRow current_variant_id st b mu (pngOf b),
     variantRow init_variant_id st b mu (pngOf b)]
  let nodes0 := s.nodes ++ [brushNodeRow b node_uuid current_variant_id init_variant_id]
  { nodes := match s.prev with
      | some p => updateNodeNext nodes0 p node_uuid
      | none => nodes0,
    variants := variants,
    materialFiles := mats,
    counter := init_variant_id,
    prev := some node_uuid,
    firstUuid := match s.firstUuid with | some u => some u | none => some node_uuid,
    firstVar := match s.firstVar with | some v => some v | none => some current_variant_id,
    g := match pngOf b with | some _ => rngDrop g1 32 | none => g1 }

/-- The brush loop over the input list in order. -/
def insert_brushes (st : Settings) (clock : Nat) :
    List Brush → BuildState → BuildState
  | [], s => s
  | b :: rest, s => insert_brushes st clock rest (insert_brush st clock b s)

/-- CSPDatabaseBuilder.create_sut_file: mint the root UUID, insert the Manager
placeholder and root Node, run the brush loop from counter 1000, point the
root at the first brush, and finalize the Manager counters (single zero byte
and constant 44 on an empty build, per the source). -/
def create_sut_file (brushes : List Brush) (package_name author_name : String)
    (st : Settings) (g : Rng) (clock : Nat) : SutDb :=
  let root_uuid := generate_uuid g
  let s0 : BuildState :=
    { nodes := [insert_root_node root_uuid package_name], variants := [],
      materialFiles := [], counter := 1000, prev := none,
      firstUuid := none, firstVar := none, g := rngDrop g 16 }
  let s1 := insert_brushes st clock brushes s0
  { manager := { insert_manager root_uuid with
      maxVariantID := s1.counter,
      currentNodeUuid := match s1.firstUuid with | some u => u | none => [0],
      commonVariantID := match s1.firstVar with | some v => v | none => 44 },
    nodes := match s1.firstUuid with
      | some u => updateFirstChild s1.nodes root_uuid u
      | none => s1.nodes,
    variants := s1.variants,
    materialFiles := s1.materialFiles }

/-- Modelled from the spec: the seed override hook making builds reproducible,
fixing the random stream; any concrete expansion serves, since the claims only
compare two runs with the same seed. -/
def seedStream (seed : Nat) : Rng := fun n => (seed + n + 1) * 2654435761 % 4294967296

/-- Modelled from the spec: the seed override also pins the wall clock used
for TAR mtimes, as required for reproducible builds. -/
def seedClock (seed : Nat) : Nat := seed % 4294967296

/-- A build whose randomness and clock come entirely from the seed. -/
def build_with_seed (brushes : List Brush) (package_name author_name : String)
    (st : Settings) (seed : Nat) : SutDb :=
  create_sut_file brushes package_name author_name st (seedStream seed) (seedClock seed)

/-- Length-prefixed byte field of the emitted serialization. -/
def emitBytes (bs : List Nat) : List Nat := u32le bs.length ++ bs

/-- Optional integer field of the emitted serialization. -/
def emitOptNat : Option Nat → List Nat
  | none => [0]
  | some n => 1 :: u32le n

/-- Optional byte field of the emitted serialization. -/
def emitOptBytes : Option (List Nat) → List Nat
  | none => [0]
  | some b => 1 :: emitBytes b

/-- Manager row serialization. -/
def emitManager (m : ManagerRow) : List Nat :=
  u32le m.toolType ++ u32le m.version ++ emitBytes m.rootUuid ++
    emitBytes m.currentNodeUuid ++ u32le m.maxVariantID ++
    u32le m.commonVariantID ++ emitBytes m.objectNodeUuid ++
    emitBytes m.pressureGraph ++ u32le m.savedCount

/-- Node row serialization. -/
def emitNode (n : NodeRow) : List Nat :=
  emitBytes n.nodeUuid ++ emitBytes (utf8 n.nodeName) ++ emitOptNat n.nodeLock ++
    emitOptNat n.nodeHidden ++ emitOptNat n.nodeInputOp ++ emitOptNat n.nodeOutputOp ++
    emitOptNat n.nodeRangeOp ++ emitOptNat n.nodeIcon ++ emitOptNat n.nodeIconColor ++
    emitOptBytes n.nodeNextUuid ++ emitOptBytes n.nodeFirstChildUuid ++
    emitOptNat n.nodeVariantID ++ emitOptNat n.nodeInitVariantID

/-- Variant row serialization. -/
def emitVariant (v : VariantRow) : List Nat :=
  u32le v.variantID ++ u32le v.opacity ++ u32le v.antiAlias ++ u32le v.compositeMode ++
    u32le v.brushSize ++ u32le v.brushSizeUnit ++ emitOptBytes v.brushSizeEffector ++
    u32le v.brushFlow ++ emitOptBytes v.brushFlowEffector ++ u32le v.brushHardness ++
    u32le v.brushInterval ++ u32le v.brushThickness ++ u32le v.brushRotation ++
    u32le v.brushUsePatternImage ++ emitBytes v.brushPatternImageArray

/-- MaterialFile row serialization. -/
def emitMaterialFile (m : MaterialFileRow) : List Nat :=
  u32le m.installFolder ++ emitBytes (utf8 m.originalPath) ++ emitOptNat m.oldMaterial ++
    emitBytes m.fileData ++ emitBytes (utf8 m.catalogPath) ++
    (match m.materialUuid with | none => [0] | some s => 1 :: emitBytes (utf8 s))

/-- Modelled from the spec: the emit step serializes the scratch database to a
single byte sequence as a function of the table contents alone (the SQLite
file format itself is outside the source tree). -/
def emit (db : SutDb) : List Nat :=
  emitManager db.manager ++
    u32le db.nodes.length ++ (db.nodes.map emitNode).flatten ++
    u32le db.variants.length ++ (db.variants.map emitVariant).flatten ++
    u32le db.materialFiles.length ++ (db.materialFiles.map emitMaterialFile).flatten

/-- The 16-byte node UUIDs minted by the brush loop, in brush order, given the
stream state at the start of the loop. -/
def mintedUuids : List Brush → Rng → List (List Nat)
  | [], _ => []
  | b :: rest, g => generate_uuid g :: mintedUuids rest (rngDrop g (rngUsed b))

/-- All 16-byte node UUIDs of a build: the root UUID then the brush UUIDs. -/
def allNodeUuids (brushes : List Brush) (g : Rng) : List (List Nat) :=
  generate_uuid g :: mintedUuids brushes (rngDrop g 16)

/-- The stream state at the start of brush i's loop iteration, given the
stream state at the start of the loop. -/
def rngAt : List Brush → Rng → Nat → Rng
  | [], g, _ => g
  | _, g, 0 => g
  | b :: rest, g, i + 1 => rngAt rest (rngDrop g (rngUsed b)) i

/-- The material UUID string minted for a brush whose iteration starts at
stream state g (defined exactly when the brush has image data). -/
def materialUuidOf (b : Brush) (g : Rng) : Option String :=
  (pngOf b).map fun _ => generate_material_uuid (rngDrop g 16)

/-- The material UUID string brush i of a build receives, as a function of the
build's initial stream. -/
def materialUuidAt (brushes : List Brush) (g : Rng) (i : Nat) : String :=
  generate_material_uuid (rngDrop (rngAt brushes (rngDrop g 16) i) 16)

/-- The material UUID strings minted by the loop, in brush order, one per
brush with image data. -/
def materialUuidsOf : List Brush → Rng → List String
  | [], _ => []
  | b :: rest, g =>
      (match pngOf b with
       | some _ => [generate_material_uuid (rngDrop g 16)]
       | none => []) ++ materialUuidsOf rest (rngDrop g (rngUsed b))

/-- The MaterialFile row index brush i's material lands at: the number of
earlier brushes with image data. -/
def matIdx (bs : List Brush) (i : Nat) : Nat :=
  ((bs.take i).filter fun b => (pngOf b).isSome).length

/-- The Variant rows the loop appends, in insertion order. -/
def segVariants (st : Settings) : List Brush → Rng → Nat → List VariantRow
  | [], _, _ => []
  | b :: rest, g, c =>
      variantRow (c + 1) st b (materialUuidOf b g) (pngOf b) ::
      variantRow (c + 2) st b (materialUuidOf b g) (pngOf b) ::
      segVariants st rest (rngDrop g (rngUsed b)) (c + 2)

/-- The MaterialFile rows the loop appends, in insertion order. -/
def segMaterials (clock : Nat) : List Brush → Rng → List MaterialFileRow
  | [], _ => []
  | b :: rest, g =>
      (match pngOf b with
       | some png => [insert_material_file (generate_material_uuid (rngDrop g 16)) png b.name clock]
       | none => []) ++ segMaterials clock rest (rngDrop g (rngUsed b))

/-- The brush Node rows as they stand when the loop finishes: each row points
at the next brush's UUID (the head of the remaining minted UUIDs) and the last
row's NodeNextUuid is still NULL. -/
def segNodes : List Brush → Rng → Nat → List NodeRow
  | [], _, _ => []
  | b :: rest, g, c =>
      { brushNodeRow b (generate_uuid g) (c + 1) (c + 2) with
          nodeNextUuid := (mintedUuids rest (rngDrop g (rngUsed b))).head? } ::
      segNodes rest (rngDrop g (rngUsed b)) (c + 2)

/-- The back-patch a later brush applies to the previous node, as a function
of the loop state's prev field. -/
def patchPrev (ns : List NodeRow) (prev : Option (List Nat)) (u : List Nat) :
    List NodeRow :=
  match prev with
  | some p => updateNodeNext ns p u
  | none => ns

/-- The projection of a Node row that no back-patch ever changes. -/
def nodeIds (n : NodeRow) : String × Option Nat × Option Nat :=
  (n.nodeName, n.nodeVariantID, n.nodeInitVariantID)

/-- The stable projections of the brush Node rows, which depend only on the
brush list and the starting counter. -/
def segNodeIds : List Brush → Nat → List (String × Option Nat × Option Nat)
  | [], _ => []
  | b :: rest, c => (b.name, some (c + 1), some (c + 2)) :: segNodeIds rest (c + 2)

/-- The OriginalPath a material UUID string produces. -/
def pathOf (u : String) : String := ".:" ++ u ++ ":data:material_0.layer"

/-- The node list a run of the loop leaves behind, as a function of the
starting node list, the prev link and starting stream and counter. -/
def loopNodes (ns : List NodeRow) (prev : Option (List Nat)) (bs : List Brush)
    (g : Rng) (c : Nat) : List NodeRow :=
  match bs with
  | [] => ns
  | _ :: _ => patchPrev ns prev (generate_uuid g) ++ segNodes bs g c

/-- The with-image BrushPatternImageArray layout the source actually emits:
big-endian framing words around the UTF-16LE reference, flags, name, and the
raw PNG. -/
def patternArrayBE (name mu : String) (png : List Nat) : List Nat :=
  u32be 8 ++ u32be 1 ++
    u32be ((utf16le (".:12:45:" ++ mu ++ ":data:material_0.layer") ++ [0, 0]).length +
      8 + (utf16le name ++ [0, 0]).length + png.length) ++
    u32be 132 ++
    (utf16le (".:12:45:" ++ mu ++ ":data:material_0.layer") ++ [0, 0]) ++
    (u32be 2 ++ u32be 20) ++ (utf16le name ++ [0, 0]) ++ png

/-- The with-image BrushPatternImageArray layout as the specification words it
in section 4.6: the same fields but with little-endian framing words. -/
def specPatternArrayLE (name mu : String) (png : List Nat) : List Nat :=
  u32le 8 ++ u32le 1 ++
    u32le ((utf16le (".:12:45:" ++ mu ++ ":data:material_0.layer") ++ [0, 0]).length +
      8 + (utf16le name ++ [0, 0]).length + png.length) ++
    u32le 132 ++
    (utf16le (".:12:45:" ++ mu ++ ":data:material_0.layer") ++ [0, 0]) ++
    (u32le 2 ++ u32le 20) ++ (utf16le name ++ [0, 0]) ++ png

/-- The empty BrushPatternImageArray record as the specification words it in
section 4.6: little-endian u32(8), u32(1), u32(0), u32(132). -/
def specEmptyPatternLE : List Nat := u32le 8 ++ u32le 1 ++ u32le 0 ++ u32le 132

/-- The effector BLOB the builder stores when a pressure flag is on: enabled
word, mode word, point count 2, then the linear curve (0,0), (1,1) as f32 LE. -/
def defaultEffectorBlob : List Nat :=
  u32le 1 ++ u32le 0 ++ u32le 2 ++ f32le f32zero ++ f32le f32zero ++
    f32le f32one ++ f32le f32one

set_option maxRecDepth 100000

/-- The identity stream used for concrete counterexample and witness builds. -/
def gId : Rng := fun n => n

/-- A concrete brush with image data used in concrete builds. -/
def cxImg : Brush := { name := "A", width := 1, height := 1, image_data := some [1, 2, 3] }

/-- A concrete brush without image data used in concrete builds. -/
def cxPlain : Brush := { name := "B", width := 1, height := 1, image_data := none }

/-- The default settings map. -/
def st0 : Settings := {}

/-- The 16-byte default pressure graph the specification section 4.7 words:
u32 LE 2, u32 LE 0, then f32 LE 0, 0, 1, 1. -/
def specPressureGraph16 : List Nat :=
  u32le 2 ++ u32le 0 ++ f32le f32zero ++ f32le f32zero ++ f32le f32one ++ f32le f32one

/-- A second concrete brush without image data, for multi-brush builds. -/
def cxPlain2 : Brush := { name := "C", width := 1, height := 1, image_data := none }

/-- Settings with both pressure flags on, for the C8 witness. -/
def stPressure : Settings := { sizePressure := true, opacityPressure := true }

theorem rngDrop_rngDrop (g : Rng) (k l : Nat) :
    rngDrop (rngDrop g k) l = rngDrop g (l + k) := by
  funext n
  simp [rngDrop, Nat.add_assoc]

theorem insert_brush_g (st : Settings) (clock : Nat) (b : Brush) (s : BuildState) :
    (insert_brush st clock b s).g = rngDrop s.g (rngUsed b) := by
  cases h : pngOf b <;> simp [insert_brush, rngUsed, h, rngDrop_rngDrop]

theorem insert_brush_counter (st : Settings) (clock : Nat) (b : Brush) (s : BuildState) :
    (insert_brush st clock b s).counter = s.counter + 2 := by
  simp [insert_brush]

theorem insert_brush_variants (st : Settings) (clock : Nat) (b : Brush) (s : BuildState) :
    (insert_brush st clock b s).variants = s.variants ++
      [variantRow (s.counter + 1) st b (materialUuidOf b s.g) (pngOf b),
       variantRow (s.counter + 2) st b (materialUuidOf b s.g) (pngOf b)] := by
  simp [insert_brush, materialUuidOf]

theorem insert_brush_materials (st : Settings) (clock : Nat) (b : Brush) (s : BuildState) :
    (insert_brush st clock b s).materialFiles = s.materialFiles ++
      (match pngOf b with
       | some png => [insert_material_file (generate_material_uuid (rngDrop s.g 16)) png b.name clock]
       | none => []) := by
  cases h : pngOf b <;> simp [insert_brush, h]

theorem insert_brush_prev (st : Settings) (clock : Nat) (b : Brush) (s : BuildState) :
    (insert_brush st clock b s).prev = some (generate_uuid s.g) := by
  simp [insert_brush]

theorem insert_brush_firstUuid (st : Settings) (clock : Nat) (b : Brush) (s : BuildState) :
    (insert_brush st clock b s).firstUuid =
      (match s.firstUuid with
       | some u => some u
       | none => some (generate_uuid s.g)) := by
  simp [insert_brush]

theorem insert_brush_firstVar (st : Settings) (clock : Nat) (b : Brush) (s : BuildState) :
    (insert_brush st clock b s).firstVar =
      (match s.firstVar with
       | some v => some v
       | none => some (s.counter + 1)) := by
  simp [insert_brush]

theorem updateNodeNext_append (xs ys : List NodeRow) (t u : List Nat) :
    updateNodeNext (xs ++ ys) t u = updateNodeNext xs t u ++ updateNodeNext ys t u := by
  simp [updateNodeNext]

theorem updateNodeNext_not_mem {xs : List NodeRow} {t : List Nat} (u : List Nat)
    (h : t ∉ xs.map NodeRow.nodeUuid) : updateNodeNext xs t u = xs := by
  have hc : ∀ n ∈ xs,
      (if n.nodeUuid = t then { n with nodeNextUuid := some u } else n) = n := by
    intro n hn
    rw [if_neg]
    intro he
    rw [← he] at h
    exact h (List.mem_map_of_mem NodeRow.nodeUuid hn)
  calc updateNodeNext xs t u = xs.map id := List.map_congr_left hc
  _ = xs := List.map_id xs

theorem updateNodeNext_map_uuid (xs : List NodeRow) (t u : List Nat) :
    (updateNodeNext xs t u).map NodeRow.nodeUuid = xs.map NodeRow.nodeUuid := by
  induction xs with
  | nil => rfl
  | cons x xs ih =>
    by_cases hx : x.nodeUuid = t <;> simp [updateNodeNext, hx] at ih ⊢ <;> exact ih

theorem updateFirstChild_not_mem {xs : List NodeRow} {t : List Nat} (u : List Nat)
    (h : t ∉ xs.map NodeRow.nodeUuid) : updateFirstChild xs t u = xs := by
  have hc : ∀ n ∈ xs,
      (if n.nodeUuid = t then { n with nodeFirstChildUuid := some u } else n) = n := by
    intro n hn
    rw [if_neg]
    intro he
    rw [← he] at h
    exact h (List.mem_map_of_mem NodeRow.nodeUuid hn)
  calc updateFirstChild xs t u = xs.map id := List.map_congr_left hc
  _ = xs := List.map_id xs

theorem patchPrev_append (xs ys : List NodeRow) (p : Option (List Nat)) (u : List Nat) :
    patchPrev (xs ++ ys) p u = patchPrev xs p u ++ patchPrev ys p u := by
  cases p <;> simp [patchPrev, updateNodeNext_append]

theorem patchPrev_map_uuid (xs : List NodeRow) (p : Option (List Nat)) (u : List Nat) :
    (patchPrev xs p u).map NodeRow.nodeUuid = xs.map NodeRow.nodeUuid := by
  cases p <;> simp [patchPrev, updateNodeNext_map_uuid]

theorem insert_brush_nodes (st : Settings) (clock : Nat) (b : Brush) (s : BuildState)
    (hp : ∀ p, s.prev = some p → p ≠ generate_uuid s.g) :
    (insert_brush st clock b s).nodes =
      patchPrev s.nodes s.prev (generate_uuid s.g) ++
        [brushNodeRow b (generate_uuid s.g) (s.counter + 1) (s.counter + 2)] := by
  cases hprev : s.prev with
  | none => simp [insert_brush, patchPrev, hprev]
  | some p =>
    have hne : ¬ (brushNodeRow b (generate_uuid s.g) (s.counter + 1) (s.counter + 2)).nodeUuid = p := by
      simp [brushNodeRow]
      exact fun hx => (hp p hprev) hx.symm
    simp [insert_brush, patchPrev, hprev, updateNodeNext_append, updateNodeNext, hne]

theorem insert_brushes_variants (st : Settings) (clock : Nat) (bs : List Brush)
    (s : BuildState) :
    (insert_brushes st clock bs s).variants = s.variants ++ segVariants st bs s.g s.counter := by
  induction bs generalizing s with
  | nil => simp [insert_brushes, segVariants]
  | cons b rest ih =>
    simp only [insert_brushes]
    rw [ih, insert_brush_variants, insert_brush_g, insert_brush_counter]
    simp [segVariants]

theorem insert_brushes_materials (st : Settings) (clock : Nat) (bs : List Brush)
    (s : BuildState) :
    (insert_brushes st clock bs s).materialFiles =
      s.materialFiles ++ segMaterials clock bs s.g := by
  induction bs generalizing s with
  | nil => simp [insert_brushes, segMaterials]
  | cons b rest ih =>
    simp only [insert_brushes]
    rw [ih, insert_brush_materials, insert_brush_g]
    cases h : pngOf b <;> simp [segMaterials, h]

theorem insert_brushes_counter (st : Settings) (clock : Nat) (bs : List Brush)
    (s : BuildState) :
    (insert_brushes st clock bs s).counter = s.counter + 2 * bs.length := by
  induction bs generalizing s with
  | nil => simp [insert_brushes]
  | cons b rest ih =>
    simp only [insert_brushes]
    rw [ih, insert_brush_counter]
    simp [List.length_cons]
    ring

theorem insert_brushes_firstUuid (st : Settings) (clock : Nat) (bs : List Brush)
    (s : BuildState) :
    (insert_brushes st clock bs s).firstUuid =
      (match s.firstUuid with
       | some u => some u
       | none => (mintedUuids bs s.g).head?) := by
  induction bs generalizing s with
  | nil => cases h : s.firstUuid <;> simp [insert_brushes, mintedUuids, h]
  | cons b rest ih =>
    simp only [insert_brushes]
    rw [ih, insert_brush_firstUuid]
    cases h : s.firstUuid <;> simp [mintedUuids, h]

theorem insert_brushes_firstVar (st : Settings) (clock : Nat) (bs : List Brush)
    (s : BuildState) :
    (insert_brushes st clock bs s).firstVar =
      (match s.firstVar with
       | some v => some v
       | none => if bs = [] then none else some (s.counter + 1)) := by
  induction bs generalizing s with
  | nil => cases h : s.firstVar <;> simp [insert_brushes, h]
  | cons b rest ih =>
    simp only [insert_brushes]
    rw [ih, insert_brush_firstVar, insert_brush_counter]
    cases h : s.firstVar <;> simp [h]

theorem mintedUuids_cons (b : Brush) (rest : List Brush) (g : Rng) :
    mintedUuids (b :: rest) g =
      generate_uuid g :: mintedUuids rest (rngDrop g (rngUsed b)) := rfl

theorem segNodes_cons (b : Brush) (rest : List Brush) (g : Rng) (c : Nat) :
    segNodes (b :: rest) g c =
      { brushNodeRow b (generate_uuid g) (c + 1) (c + 2) with
          nodeNextUuid := (mintedUuids rest (rngDrop g (rngUsed b))).head? } ::
        segNodes rest (rngDrop g (rngUsed b)) (c + 2) := rfl

theorem segNodes_map_uuid (bs : List Brush) (g : Rng) (c : Nat) :
    (segNodes bs g c).map NodeRow.nodeUuid = mintedUuids bs g := by
  induction bs generalizing g c with
  | nil => rfl
  | cons b rest ih =>
    rw [segNodes_cons, List.map_cons, ih, mintedUuids_cons]
    rfl

theorem patchPrev_some (ns : List NodeRow) (p u : List Nat) :
    patchPrev ns (some p) u = updateNodeNext ns p u := rfl

theorem patchPrev_none (ns : List NodeRow) (u : List Nat) :
    patchPrev ns none u = ns := rfl

theorem insert_brushes_nodes (st : Settings) (clock : Nat) (bs : List Brush)
    (s : BuildState)
    (hfresh : ∀ u ∈ mintedUuids bs s.g, u ∉ s.nodes.map NodeRow.nodeUuid)
    (hnodup : (mintedUuids bs s.g).Nodup)
    (hprev : ∀ p, s.prev = some p → p ∉ mintedUuids bs s.g) :
    (insert_brushes st clock bs s).nodes = loopNodes s.nodes s.prev bs s.g s.counter := by
  induction bs generalizing s with
  | nil => rfl
  | cons b rest ih =>
    have hu0 : generate_uuid s.g ∈ mintedUuids (b :: rest) s.g := by
      rw [mintedUuids_cons]; exact List.mem_cons_self _ _
    have hstep : (insert_brush st clock b s).nodes =
        patchPrev s.nodes s.prev (generate_uuid s.g) ++
          [brushNodeRow b (generate_uuid s.g) (s.counter + 1) (s.counter + 2)] := by
      refine insert_brush_nodes st clock b s ?_
      intro p hp he
      exact hprev p hp (he ▸ hu0)
    have hg : (insert_brush st clock b s).g = rngDrop s.g (rngUsed b) :=
      insert_brush_g st clock b s
    have hrest_nodup : (mintedUuids rest (rngDrop s.g (rngUsed b))).Nodup := by
      rw [mintedUuids_cons] at hnodup
      exact hnodup.of_cons
    have hu0_notin : generate_uuid s.g ∉ mintedUuids rest (rngDrop s.g (rngUsed b)) := by
      rw [mintedUuids_cons] at hnodup
      exact (List.nodup_cons.mp hnodup).1
    have hmap : (insert_brush st clock b s).nodes.map NodeRow.nodeUuid =
        s.nodes.map NodeRow.nodeUuid ++ [generate_uuid s.g] := by
      rw [hstep, List.map_append, patchPrev_map_uuid]
      rfl
    have hf1 : ∀ u ∈ mintedUuids rest (insert_brush st clock b s).g,
        u ∉ (insert_brush st clock b s).nodes.map NodeRow.nodeUuid := by
      intro u hu
      rw [hg] at hu
      rw [hmap]
      have hu' : u ∈ mintedUuids (b :: rest) s.g := by
        rw [mintedUuids_cons]
        exact List.mem_cons_of_mem _ hu
      simp only [List.mem_append, List.mem_singleton]
      push_neg
      exact ⟨hfresh u hu', fun he => hu0_notin (he ▸ hu)⟩
    have hf2 : (mintedUuids rest (insert_brush st clock b s).g).Nodup := by
      rw [hg]; exact hrest_nodup
    have hf3 : ∀ p, (insert_brush st clock b s).prev = some p →
        p ∉ mintedUuids rest (insert_brush st clock b s).g := by
      intro p hp
      rw [insert_brush_prev] at hp
      rw [hg]
      cases hp
      exact hu0_notin
    have hres := ih (insert_brush st clock b s) hf1 hf2 hf3
    rw [insert_brush_prev, insert_brush_g, insert_brush_counter] at hres
    show (insert_brushes st clock rest (insert_brush st clock b s)).nodes = _
    rw [hres]
    cases rest with
    | nil =>
      rw [loopNodes, loopNodes, hstep, segNodes_cons]
      rfl
    | cons b2 rest2 =>
      rw [loopNodes, loopNodes, patchPrev_some, hstep, updateNodeNext_append]
      have h1 : updateNodeNext (patchPrev s.nodes s.prev (generate_uuid s.g))
          (generate_uuid s.g) (generate_uuid (rngDrop s.g (rngUsed b))) =
          patchPrev s.nodes s.prev (generate_uuid s.g) := by
        refine updateNodeNext_not_mem _ ?_
        rw [patchPrev_map_uuid]
        exact hfresh _ hu0
      have h2 : updateNodeNext
          [brushNodeRow b (generate_uuid s.g) (s.counter + 1) (s.counter + 2)]
          (generate_uuid s.g) (generate_uuid (rngDrop s.g (rngUsed b))) =
          [{ brushNodeRow b (generate_uuid s.g) (s.counter + 1) (s.counter + 2) with
              nodeNextUuid := some (generate_uuid (rngDrop s.g (rngUsed b))) }] := by
        simp [updateNodeNext, brushNodeRow]
      rw [h1, h2, segNodes_cons, List.append_assoc]
      rfl

theorem updateNodeNext_map_ids (xs : List NodeRow) (t u : List Nat) :
    (updateNodeNext xs t u).map nodeIds = xs.map nodeIds := by
  induction xs with
  | nil => rfl
  | cons x xs ih =>
    simp only [updateNodeNext, List.map_cons] at ih ⊢
    rw [ih]
    by_cases hx : x.nodeUuid = t
    · rw [if_pos hx]; rfl
    · rw [if_neg hx]

theorem updateFirstChild_map_ids (xs : List NodeRow) (t u : List Nat) :
    (updateFirstChild xs t u).map nodeIds = xs.map nodeIds := by
  induction xs with
  | nil => rfl
  | cons x xs ih =>
    simp only [updateFirstChild, List.map_cons] at ih ⊢
    rw [ih]
    by_cases hx : x.nodeUuid = t
    · rw [if_pos hx]; rfl
    · rw [if_neg hx]

theorem insert_brush_nodes_ids (st : Settings) (clock : Nat) (b : Brush)
    (s : BuildState) :
    (insert_brush st clock b s).nodes.map nodeIds =
      s.nodes.map nodeIds ++ [(b.name, some (s.counter + 1), some (s.counter + 2))] := by
  cases hprev : s.prev with
  | none => simp [insert_brush, hprev, nodeIds, brushNodeRow]
  | some p =>
    simp only [insert_brush, hprev]
    rw [updateNodeNext_map_ids]
    simp [nodeIds, brushNodeRow]

theorem insert_brushes_nodes_ids (st : Settings) (clock : Nat) (bs : List Brush)
    (s : BuildState) :
    (insert_brushes st clock bs s).nodes.map nodeIds =
      s.nodes.map nodeIds ++ segNodeIds bs s.counter := by
  induction bs generalizing s with
  | nil => simp [insert_brushes, segNodeIds]
  | cons b rest ih =>
    simp only [insert_brushes]
    rw [ih, insert_brush_nodes_ids, insert_brush_counter]
    simp [segNodeIds]

theorem create_variants (brushes : List Brush) (p a : String) (st : Settings)
    (g : Rng) (clock : Nat) :
    (create_sut_file brushes p a st g clock).variants =
      segVariants st brushes (rngDrop g 16) 1000 := by
  simp [create_sut_file, insert_brushes_variants]

theorem create_materials (brushes : List Brush) (p a : String) (st : Settings)
    (g : Rng) (clock : Nat) :
    (create_sut_file brushes p a st g clock).materialFiles =
      segMaterials clock brushes (rngDrop g 16) := by
  simp [create_sut_file, insert_brushes_materials]

theorem create_manager (brushes : List Brush) (p a : String) (st : Settings)
    (g : Rng) (clock : Nat) :
    (create_sut_file brushes p a st g clock).manager =
      { toolType := 0, version := 126, rootUuid := generate_uuid g,
        currentNodeUuid :=
          (match (mintedUuids brushes (rngDrop g 16)).head? with
           | some u => u
           | none => [0]),
        maxVariantID := 1000 + 2 * brushes.length,
        commonVariantID := if brushes = [] then 44 else 1001,
        objectNodeUuid := generate_uuid g,
        pressureGraph := default_pressure_graph, savedCount := 0 } := by
  simp only [create_sut_file]
  rw [ManagerRow.mk.injEq]
  refine ⟨rfl, rfl, rfl, ?_, ?_, ?_, rfl, rfl, rfl⟩
  · rw [insert_brushes_firstUuid]
  · rw [insert_brushes_counter]
  · rw [insert_brushes_firstVar]
    cases brushes with
    | nil => simp
    | cons b rest => simp

theorem create_nodes_ids (brushes : List Brush) (p a : String) (st : Settings)
    (g : Rng) (clock : Nat) :
    (create_sut_file brushes p a st g clock).nodes.map nodeIds =
      (p, none, none) :: segNodeIds brushes 1000 := by
  simp only [create_sut_file]
  cases hfu : (insert_brushes st clock brushes
      { nodes := [insert_root_node (generate_uuid g) p], variants := [],
        materialFiles := [], counter := 1000, prev := none,
        firstUuid := none, firstVar := none, g := rngDrop g 16 } :
      BuildState).firstUuid with
  | none =>
    simp only [hfu]
    rw [insert_brushes_nodes_ids]
    simp [insert_root_node, nodeIds]
  | some u =>
    simp only [hfu]
    rw [updateFirstChild_map_ids, insert_brushes_nodes_ids]
    simp [insert_root_node, nodeIds]

theorem loopNodes_nil (ns : List NodeRow) (prev : Option (List Nat)) (g : Rng)
    (c : Nat) : loopNodes ns prev [] g c = ns := rfl

theorem loopNodes_cons (ns : List NodeRow) (prev : Option (List Nat)) (b : Brush)
    (rest : List Brush) (g : Rng) (c : Nat) :
    loopNodes ns prev (b :: rest) g c =
      patchPrev ns prev (generate_uuid g) ++ segNodes (b :: rest) g c := rfl

theorem updateFirstChild_append (xs ys : List NodeRow) (t u : List Nat) :
    updateFirstChild (xs ++ ys) t u = updateFirstChild xs t u ++ updateFirstChild ys t u := by
  simp [updateFirstChild]

theorem create_nodes (brushes : List Brush) (p a : String) (st : Settings)
    (g : Rng) (clock : Nat) (h : (allNodeUuids brushes g).Nodup) :
    (create_sut_file brushes p a st g clock).nodes =
      { insert_root_node (generate_uuid g) p with
          nodeFirstChildUuid := (mintedUuids brushes (rngDrop g 16)).head? } ::
        segNodes brushes (rngDrop g 16) 1000 := by
  have hnodup : (mintedUuids brushes (rngDrop g 16)).Nodup := by
    unfold allNodeUuids at h
    exact h.of_cons
  have hroot_notin : generate_uuid g ∉ mintedUuids brushes (rngDrop g 16) := by
    unfold allNodeUuids at h
    exact (List.nodup_cons.mp h).1
  have hfresh : ∀ u ∈ mintedUuids brushes (rngDrop g 16),
      u ∉ ([insert_root_node (generate_uuid g) p].map NodeRow.nodeUuid) := by
    intro u hu
    simp only [List.map_cons, List.map_nil, List.mem_singleton, insert_root_node]
    exact fun he => hroot_notin (he ▸ hu)
  have hn : (insert_brushes st clock brushes
      { nodes := [insert_root_node (generate_uuid g) p], variants := [],
        materialFiles := [], counter := 1000, prev := none,
        firstUuid := none, firstVar := none, g := rngDrop g 16 } :
        BuildState).nodes =
      loopNodes [insert_root_node (generate_uuid g) p] none brushes (rngDrop g 16) 1000 :=
    insert_brushes_nodes st clock brushes _ hfresh hnodup (by intro q hq; cases hq)
  have hfu : (insert_brushes st clock brushes
      { nodes := [insert_root_node (generate_uuid g) p], variants := [],
        materialFiles := [], counter := 1000, prev := none,
        firstUuid := none, firstVar := none, g := rngDrop g 16 } :
        BuildState).firstUuid =
      (mintedUuids brushes (rngDrop g 16)).head? :=
    insert_brushes_firstUuid st clock brushes _
  show (match (insert_brushes st clock brushes _ : BuildState).firstUuid with
    | some u => updateFirstChild (insert_brushes st clock brushes _ :
        BuildState).nodes (generate_uuid g) u
    | none => (insert_brushes st clock brushes _ : BuildState).nodes) = _
  rw [hfu, hn]
  cases brushes with
  | nil => rfl
  | cons b rest =>
    rw [mintedUuids_cons, List.head?_cons]
    show updateFirstChild
      (loopNodes [insert_root_node (generate_uuid g) p] none (b :: rest) (rngDrop g 16) 1000)
      (generate_uuid g) (generate_uuid (rngDrop g 16)) = _
    rw [loopNodes_cons, patchPrev_none, updateFirstChild_append]
    have hseg : updateFirstChild (segNodes (b :: rest) (rngDrop g 16) 1000)
        (generate_uuid g) (generate_uuid (rngDrop g 16)) =
        segNodes (b :: rest) (rngDrop g 16) 1000 := by
      refine updateFirstChild_not_mem _ ?_
      rw [segNodes_map_uuid]
      exact hroot_notin
    have hone : updateFirstChild [insert_root_node (generate_uuid g) p]
        (generate_uuid g) (generate_uuid (rngDrop g 16)) =
        [{ insert_root_node (generate_uuid g) p with
            nodeFirstChildUuid := some (generate_uuid (rngDrop g 16)) }] := by
      simp [updateFirstChild, insert_root_node]
    rw [hseg, hone]
    rfl

theorem segVariants_cons (st : Settings) (b : Brush) (rest : List Brush) (g : Rng) (c : Nat) :
    segVariants st (b :: rest) g c =
      variantRow (c + 1) st b (materialUuidOf b g) (pngOf b) ::
      variantRow (c + 2) st b (materialUuidOf b g) (pngOf b) ::
      segVariants st rest (rngDrop g (rngUsed b)) (c + 2) := rfl

theorem rngAt_cons_succ (b : Brush) (rest : List Brush) (g : Rng) (i : Nat) :
    rngAt (b :: rest) g (i + 1) = rngAt rest (rngDrop g (rngUsed b)) i := rfl

theorem rngAt_cons_zero (b : Brush) (rest : List Brush) (g : Rng) :
    rngAt (b :: rest) g 0 = g := rfl

theorem segVariants_getElem (st : Settings) (bs : List Brush) (g : Rng) (c i : Nat)
    (b : Brush) (hb : bs[i]? = some b) :
    (segVariants st bs g c)[2 * i]? =
      some (variantRow (c + 2 * i + 1) st b (materialUuidOf b (rngAt bs g i)) (pngOf b)) ∧
    (segVariants st bs g c)[2 * i + 1]? =
      some (variantRow (c + 2 * i + 2) st b (materialUuidOf b (rngAt bs g i)) (pngOf b)) := by
  induction bs generalizing g c i with
  | nil => simp at hb
  | cons b0 rest ih =>
    cases i with
    | zero =>
      simp only [List.getElem?_cons_zero, Option.some.injEq] at hb
      subst hb
      rw [segVariants_cons]
      constructor
      · simp [rngAt_cons_zero]
      · simp [rngAt_cons_zero]
    | succ i =>
      have hb' : rest[i]? = some b := by simpa using hb
      have hih := ih (rngDrop g (rngUsed b0)) (c + 2) i hb'
      rw [segVariants_cons, rngAt_cons_succ]
      constructor
      · show (variantRow (c + 1) st b0 (materialUuidOf b0 g) (pngOf b0) ::
          variantRow (c + 2) st b0 (materialUuidOf b0 g) (pngOf b0) ::
          segVariants st rest (rngDrop g (rngUsed b0)) (c + 2))[2 * i + 1 + 1]? = _
        rw [List.getElem?_cons_succ, List.getElem?_cons_succ]
        rw [hih.1]
        congr 2
        omega
      · show (variantRow (c + 1) st b0 (materialUuidOf b0 g) (pngOf b0) ::
          variantRow (c + 2) st b0 (materialUuidOf b0 g) (pngOf b0) ::
          segVariants st rest (rngDrop g (rngUsed b0)) (c + 2))[2 * i + 1 + 1 + 1]? = _
        rw [List.getElem?_cons_succ, List.getElem?_cons_succ]
        rw [hih.2]
        congr 2
        omega

theorem segNodeIds_cons (b : Brush) (rest : List Brush) (c : Nat) :
    segNodeIds (b :: rest) c =
      (b.name, some (c + 1), some (c + 2)) :: segNodeIds rest (c + 2) := rfl

theorem segNodeIds_getElem (bs : List Brush) (c i : Nat) (b : Brush)
    (hb : bs[i]? = some b) :
    (segNodeIds bs c)[i]? = some (b.name, some (c + 2 * i + 1), some (c + 2 * i + 2)) := by
  induction bs generalizing c i with
  | nil => simp at hb
  | cons b0 rest ih =>
    cases i with
    | zero =>
      simp only [List.getElem?_cons_zero, Option.some.injEq] at hb
      subst hb
      rw [segNodeIds_cons]
      simp
    | succ i =>
      have hb' : rest[i]? = some b := by simpa using hb
      rw [segNodeIds_cons, List.getElem?_cons_succ, ih (c + 2) i hb']
      have e1 : c + 2 + 2 * i + 1 = c + 2 * (i + 1) + 1 := by ring
      have e2 : c + 2 + 2 * i + 2 = c + 2 * (i + 1) + 2 := by ring
      rw [e1, e2]

theorem segNodes_chain (bs : List Brush) (g : Rng) (c i : Nat)
    (h : i + 1 < bs.length) :
    ∃ n m, (segNodes bs g c)[i]? = some n ∧ (segNodes bs g c)[i + 1]? = some m ∧
      n.nodeNextUuid = some m.nodeUuid := by
  induction bs generalizing g c i with
  | nil => simp at h
  | cons b0 rest ih =>
    cases i with
    | zero =>
      cases rest with
      | nil => simp at h
      | cons b2 rest2 =>
        have h1 : (segNodes (b0 :: b2 :: rest2) g c)[0]? =
            some { brushNodeRow b0 (generate_uuid g) (c + 1) (c + 2) with
              nodeNextUuid :=
                (mintedUuids (b2 :: rest2) (rngDrop g (rngUsed b0))).head? } := rfl
        have h2 : (segNodes (b0 :: b2 :: rest2) g c)[0 + 1]? =
            some { brushNodeRow b2 (generate_uuid (rngDrop g (rngUsed b0)))
                (c + 2 + 1) (c + 2 + 2) with
              nodeNextUuid :=
                (mintedUuids rest2
                  (rngDrop (rngDrop g (rngUsed b0)) (rngUsed b2))).head? } := by
          rw [segNodes_cons, List.getElem?_cons_succ, segNodes_cons,
            List.getElem?_cons_zero]
        exact ⟨_, _, h1, h2, rfl⟩
    | succ i =>
      have h' : i + 1 < rest.length := by simpa using h
      obtain ⟨n, m, h1, h2, h3⟩ := ih (rngDrop g (rngUsed b0)) (c + 2) i h'
      exact ⟨n, m, by rw [segNodes_cons, List.getElem?_cons_succ]; exact h1,
        by rw [segNodes_cons, List.getElem?_cons_succ]; exact h2, h3⟩

theorem segNodes_last (bs : List Brush) (g : Rng) (c : Nat) (h : bs ≠ []) :
    ∃ n, (segNodes bs g c)[bs.length - 1]? = some n ∧ n.nodeNextUuid = none := by
  induction bs generalizing g c with
  | nil => exact absurd rfl h
  | cons b0 rest ih =>
    cases rest with
    | nil => exact ⟨_, rfl, rfl⟩
    | cons b2 rest2 =>
      obtain ⟨n, h1, h2⟩ := ih (rngDrop g (rngUsed b0)) (c + 2) (by simp)
      refine ⟨n, ?_, h2⟩
      have hl : (b0 :: b2 :: rest2).length - 1 = (b2 :: rest2).length - 1 + 1 := by
        simp
      rw [hl, segNodes_cons, List.getElem?_cons_succ]
      exact h1

theorem matIdx_cons_zero (b0 : Brush) (rest : List Brush) :
    matIdx (b0 :: rest) 0 = 0 := rfl

theorem matIdx_cons_succ_some (b0 : Brush) (rest : List Brush) (i : Nat)
    (hp : (pngOf b0).isSome) :
    matIdx (b0 :: rest) (i + 1) = matIdx rest i + 1 := by
  simp [matIdx, List.take_succ_cons, List.filter_cons, hp]

theorem matIdx_cons_succ_none (b0 : Brush) (rest : List Brush) (i : Nat)
    (hp : pngOf b0 = none) :
    matIdx (b0 :: rest) (i + 1) = matIdx rest i := by
  simp [matIdx, List.take_succ_cons, List.filter_cons, hp]

theorem segMaterials_cons_some (clock : Nat) (b : Brush) (rest : List Brush)
    (g : Rng) (png : List Nat) (hp : pngOf b = some png) :
    segMaterials clock (b :: rest) g =
      insert_material_file (generate_material_uuid (rngDrop g 16)) png b.name clock ::
        segMaterials clock rest (rngDrop g (rngUsed b)) := by
  simp [segMaterials, hp]

theorem segMaterials_cons_none (clock : Nat) (b : Brush) (rest : List Brush)
    (g : Rng) (hp : pngOf b = none) :
    segMaterials clock (b :: rest) g =
      segMaterials clock rest (rngDrop g (rngUsed b)) := by
  simp [segMaterials, hp]

theorem materialUuidsOf_cons_some (b : Brush) (rest : List Brush) (g : Rng)
    (png : List Nat) (hp : pngOf b = some png) :
    materialUuidsOf (b :: rest) g =
      generate_material_uuid (rngDrop g 16) ::
        materialUuidsOf rest (rngDrop g (rngUsed b)) := by
  simp [materialUuidsOf, hp]

theorem materialUuidsOf_cons_none (b : Brush) (rest : List Brush) (g : Rng)
    (hp : pngOf b = none) :
    materialUuidsOf (b :: rest) g = materialUuidsOf rest (rngDrop g (rngUsed b)) := by
  simp [materialUuidsOf, hp]

theorem segMaterials_getElem (clock : Nat) (bs : List Brush) (g : Rng) (i : Nat)
    (b : Brush) (png : List Nat) (hb : bs[i]? = some b) (hp : pngOf b = some png) :
    (segMaterials clock bs g)[matIdx bs i]? =
      some (insert_material_file
        (generate_material_uuid (rngDrop (rngAt bs g i) 16)) png b.name clock) := by
  induction bs generalizing g i with
  | nil => simp at hb
  | cons b0 rest ih =>
    cases i with
    | zero =>
      simp only [List.getElem?_cons_zero, Option.some.injEq] at hb
      subst hb
      rw [segMaterials_cons_some clock b0 rest g png hp, matIdx_cons_zero,
        rngAt_cons_zero, List.getElem?_cons_zero]
    | succ i =>
      have hb' : rest[i]? = some b := by simpa using hb
      rw [rngAt_cons_succ]
      cases hp0 : pngOf b0 with
      | none =>
        rw [segMaterials_cons_none clock b0 rest g hp0, matIdx_cons_succ_none b0 rest i hp0]
        exact ih (rngDrop g (rngUsed b0)) i hb'
      | some png0 =>
        rw [segMaterials_cons_some clock b0 rest g png0 hp0,
          matIdx_cons_succ_some b0 rest i (by simp [hp0]), List.getElem?_cons_succ]
        exact ih (rngDrop g (rngUsed b0)) i hb'

theorem materialUuidsOf_getElem (bs : List Brush) (g : Rng) (i : Nat)
    (b : Brush) (png : List Nat) (hb : bs[i]? = some b) (hp : pngOf b = some png) :
    (materialUuidsOf bs g)[matIdx bs i]? =
      some (generate_material_uuid (rngDrop (rngAt bs g i) 16)) := by
  induction bs generalizing g i with
  | nil => simp at hb
  | cons b0 rest ih =>
    cases i with
    | zero =>
      simp only [List.getElem?_cons_zero, Option.some.injEq] at hb
      subst hb
      rw [materialUuidsOf_cons_some b0 rest g png hp, matIdx_cons_zero,
        rngAt_cons_zero, List.getElem?_cons_zero]
    | succ i =>
      have hb' : rest[i]? = some b := by simpa using hb
      rw [rngAt_cons_succ]
      cases hp0 : pngOf b0 with
      | none =>
        rw [materialUuidsOf_cons_none b0 rest g hp0, matIdx_cons_succ_none b0 rest i hp0]
        exact ih (rngDrop g (rngUsed b0)) i hb'
      | some png0 =>
        rw [materialUuidsOf_cons_some b0 rest g png0 hp0,
          matIdx_cons_succ_some b0 rest i (by simp [hp0]), List.getElem?_cons_succ]
        exact ih (rngDrop g (rngUsed b0)) i hb'

theorem segMaterials_paths (clock : Nat) (bs : List Brush) (g : Rng) :
    (segMaterials clock bs g).map MaterialFileRow.originalPath =
      (materialUuidsOf bs g).map pathOf := by
  induction bs generalizing g with
  | nil => rfl
  | cons b0 rest ih =>
    cases hp0 : pngOf b0 with
    | none =>
      rw [segMaterials_cons_none clock b0 rest g hp0, materialUuidsOf_cons_none b0 rest g hp0]
      exact ih (rngDrop g (rngUsed b0))
    | some png0 =>
      rw [segMaterials_cons_some clock b0 rest g png0 hp0,
        materialUuidsOf_cons_some b0 rest g png0 hp0, List.map_cons, List.map_cons,
        ih (rngDrop g (rngUsed b0))]
      rfl

theorem hexRun_data (g : Rng) (off len : Nat) :
    (hexRun g off len).data = (List.range len).map fun i => hexDigit (g (off + i) % 16) := rfl

theorem generate_material_uuid_length (g : Rng) :
    (generate_material_uuid g).data.length = 36 := by
  simp [generate_material_uuid, String.data_append, hexRun_data]

theorem generate_material_uuid_ne_empty (g : Rng) : generate_material_uuid g ≠ "" := by
  intro h
  have h36 := generate_material_uuid_length g
  rw [h] at h36
  simp at h36

theorem pathOf_inj {u v : String} (h : pathOf u = pathOf v) : u = v := by
  unfold pathOf at h
  have hd := congrArg String.data h
  simp only [String.data_append] at hd
  have h1 := List.append_cancel_right hd
  have h2 := List.append_cancel_left h1
  exact String.ext h2

theorem utf16le_append (s t : String) : utf16le (s ++ t) = utf16le s ++ utf16le t := by
  simp [utf16le, String.data_append]

theorem pngOf_ne_nil {b : Brush} {png : List Nat} (h : pngOf b = some png) : png ≠ [] := by
  cases hb : b.image_data with
  | none => simp [pngOf, hb] at h
  | some p =>
    by_cases hp : p = []
    · simp [pngOf, hb, hp] at h
    · simp [pngOf, hb, hp] at h
      exact h ▸ hp

theorem encode_brush_pattern_array_some (name mu : String) (png : List Nat)
    (hmu : mu ≠ "") (hpng : png ≠ []) :
    encode_brush_pattern_array name (some mu) (some png) =
      patternArrayBE name mu png := by
  rw [encode_brush_pattern_array, patternArrayBE]
  rw [if_neg (by push_neg; exact ⟨hmu, hpng⟩)]
  rfl

theorem encode_brush_pattern_array_none (name : String) :
    encode_brush_pattern_array name none none =
      [0, 0, 0, 8, 0, 0, 0, 1, 0, 0, 0, 0, 0, 0, 0, 0] := rfl

theorem patternArrayBE_contains (name mu : String) (png : List Nat) :
    ∃ pre post, patternArrayBE name mu png = pre ++ utf16le mu ++ post := by
  refine ⟨u32be 8 ++ u32be 1 ++
    u32be ((utf16le (".:12:45:" ++ mu ++ ":data:material_0.layer") ++ [0, 0]).length +
      8 + (utf16le name ++ [0, 0]).length + png.length) ++
    u32be 132 ++ utf16le ".:12:45:",
    utf16le ":data:material_0.layer" ++ [0, 0] ++
      (u32be 2 ++ u32be 20) ++ (utf16le name ++ [0, 0]) ++ png, ?_⟩
  rw [patternArrayBE]
  rw [utf16le_append, utf16le_append]
  simp [List.append_assoc]

theorem segMaterials_countP (clock : Nat) (bs : List Brush) (g : Rng) (u : String)
    (hmem : u ∈ materialUuidsOf bs g) (hnodup : (materialUuidsOf bs g).Nodup) :
    (segMaterials clock bs g).countP (fun m => m.originalPath == pathOf u) = 1 := by
  have h1 : (segMaterials clock bs g).countP (fun m => m.originalPath == pathOf u) =
      ((segMaterials clock bs g).map MaterialFileRow.originalPath).countP
        (fun s => s == pathOf u) := by
    rw [List.countP_map]
    rfl
  rw [h1, segMaterials_paths, List.countP_map]
  have h2 : (materialUuidsOf bs g).countP ((fun s => s == pathOf u) ∘ pathOf) =
      (materialUuidsOf bs g).countP (fun v => v == u) := by
    refine List.countP_congr ?_
    intro v hv
    constructor
    · intro hb
      simp only [Function.comp_apply, beq_iff_eq] at hb
      simp [pathOf_inj hb]
    · intro hb
      simp only [beq_iff_eq] at hb
      simp [Function.comp_apply, hb]
  rw [h2]
  exact List.count_eq_one_of_mem hnodup hmem

theorem encode_effector_default (en : Bool) :
    encode_effector_blob en default_curve =
      if en then some defaultEffectorBlob else none := by
  cases en <;> decide

theorem encode_effector_none_iff (en : Bool) (curve : List (F32 × F32)) :
    encode_effector_blob en curve = none ↔ (en = false ∨ curve = []) := by
  by_cases h : en = false ∨ curve = []
  · rw [encode_effector_blob, if_pos h]
    simp [h]
  · rw [encode_effector_blob, if_neg h]
    simp [h]

theorem encode_effector_some (curve : List (F32 × F32)) (h : curve ≠ []) :
    encode_effector_blob true curve =
      some (u32le 1 ++ u32le 0 ++ u32le (curve.take 10).length ++
        ((curve.take 10).map fun q => f32le q.1 ++ f32le q.2).flatten) := by
  rw [encode_effector_blob, if_neg (by simp [h])]

theorem pairBytes_length (l : List (F32 × F32)) :
    ((l.map fun q => f32le q.1 ++ f32le q.2).flatten).length = 8 * l.length := by
  induction l with
  | nil => rfl
  | cons q l ih =>
    rw [List.map_cons, List.flatten_cons, List.length_append, ih]
    have h8 : (f32le q.1 ++ f32le q.2).length = 8 := rfl
    rw [h8, List.length_cons]
    ring

/-- C9 counterexample: on a concrete build the stored Manager.PressureGraph is
not the 16-byte default of section 4.7. -/
theorem claim_c9_counterexample :
    ¬ ((create_sut_file [] "P" "A" st0 gId 0).manager.pressureGraph =
      specPressureGraph16) := by
  decide

/-- C9 (amended): every build stores the fixed 124-byte default pressure graph
(the sample.sut blob) on Manager.PressureGraph, not the 16-byte default. -/
theorem claim_c9_theorem (brushes : List Brush) (p a : String) (st : Settings)
    (g : Rng) (clock : Nat) :
    (create_sut_file brushes p a st g clock).manager.pressureGraph =
      default_pressure_graph ∧ default_pressure_graph.length = 124 := by
  constructor
  · rw [create_manager]
  · decide

/-- C2 counterexample: the finalized Manager row of a concrete empty build has
neither CurrentNodeUuid equal to 16 zero bytes nor CommonVariantID 1001. -/
theorem claim_c2_counterexample :
    ¬ ((create_sut_file [] "Empty" "A" st0 gId 0).manager.currentNodeUuid =
        List.replicate 16 0 ∧
      (create_sut_file [] "Empty" "A" st0 gId 0).manager.commonVariantID = 1001) := by
  decide

/-- C2 (amended): for every build with an empty brush list, the finalized
Manager row has CurrentNodeUuid equal to the single zero byte and
CommonVariantID equal to the constant 44. -/
theorem claim_c2_theorem (p a : String) (st : Settings) (g : Rng) (clock : Nat) :
    (create_sut_file [] p a st g clock).manager.currentNodeUuid = [0] ∧
    (create_sut_file [] p a st g clock).manager.commonVariantID = 44 := by
  rw [create_manager]
  exact ⟨rfl, rfl⟩

/-- C7: two builds from the same brush inputs, package metadata, settings and
seed (the seed fixing both the random stream and the clock) emit identical
byte sequences. -/
theorem claim_c7_theorem (brushes : List Brush) (p a : String) (st : Settings)
    (seed1 seed2 : Nat) (h : seed1 = seed2) :
    emit (build_with_seed brushes p a st seed1) =
      emit (build_with_seed brushes p a st seed2) := by
  rw [h]

/-- C7 witness at a concrete seed and input. -/
theorem claim_c7_witness :
    emit (build_with_seed [cxPlain] "P" "A" st0 5) =
      emit (build_with_seed [cxPlain] "P" "A" st0 5) :=
  claim_c7_theorem [cxPlain] "P" "A" st0 5 5 rfl

/-- C10: an enabled effector encoding of a curve longer than 10 points
truncates to the first 10 points, writes point count 10, returns a value
(never an error), and encodes exactly 10 pairs (80 bytes of points). -/
theorem claim_c10_theorem (curve : List (F32 × F32)) (h : curve.length > 10) :
    encode_effector_blob true curve =
      some (u32le 1 ++ u32le 0 ++ u32le 10 ++
        ((curve.take 10).map fun q => f32le q.1 ++ f32le q.2).flatten) ∧
    ((curve.take 10).map fun q => f32le q.1 ++ f32le q.2).flatten.length = 80 := by
  have hne : curve ≠ [] := by
    intro he
    rw [he] at h
    simp at h
  have hlen : (curve.take 10).length = 10 := by
    rw [List.length_take]
    omega
  constructor
  · rw [encode_effector_some curve hne, hlen]
  · rw [pairBytes_length, hlen]

/-- C10 witness on an 11-point curve. -/
theorem claim_c10_witness :
    (List.replicate 11 (f32zero, f32zero)).length > 10 ∧
    (encode_effector_blob true (List.replicate 11 (f32zero, f32zero)) =
      some (u32le 1 ++ u32le 0 ++ u32le 10 ++
        (((List.replicate 11 (f32zero, f32zero)).take 10).map
          fun q => f32le q.1 ++ f32le q.2).flatten) ∧
    (((List.replicate 11 (f32zero, f32zero)).take 10).map
      fun q => f32le q.1 ++ f32le q.2).flatten.length = 80) :=
  ⟨by decide, claim_c10_theorem (List.replicate 11 (f32zero, f32zero)) (by decide)⟩

/-- C3 counterexample: on a concrete build of one brush without image data the
stored empty BrushPatternImageArray on the Variant rows is not the
little-endian record of section 4.6. -/
theorem claim_c3_counterexample :
    ¬ ((create_sut_file [cxPlain] "P" "A" st0 gId 0).variants.map
        (fun v => v.brushPatternImageArray) =
      [specEmptyPatternLE, specEmptyPatternLE]) := by
  decide

/-- C3 (amended): for every brush without image data, the
BrushPatternImageArray stored on its two Variant rows is exactly the 16-byte
big-endian record u32(8), u32(1), u32(0), u32(0) - the final word is 0, not
0x84, and the framing is big-endian. -/
theorem claim_c3_theorem (brushes : List Brush) (p a : String) (st : Settings)
    (g : Rng) (clock i : Nat) (b : Brush)
    (hb : brushes[i]? = some b) (hnone : pngOf b = none) :
    ∃ v w,
      (create_sut_file brushes p a st g clock).variants[2 * i]? = some v ∧
      (create_sut_file brushes p a st g clock).variants[2 * i + 1]? = some w ∧
      v.brushPatternImageArray = [0, 0, 0, 8, 0, 0, 0, 1, 0, 0, 0, 0, 0, 0, 0, 0] ∧
      w.brushPatternImageArray = [0, 0, 0, 8, 0, 0, 0, 1, 0, 0, 0, 0, 0, 0, 0, 0] := by
  rw [create_variants]
  obtain ⟨h1, h2⟩ := segVariants_getElem st brushes (rngDrop g 16) 1000 i b hb
  refine ⟨_, _, h1, h2, ?_, ?_⟩ <;>
  · show encode_brush_pattern_array b.name
      (materialUuidOf b (rngAt brushes (rngDrop g 16) i)) (pngOf b) = _
    rw [materialUuidOf, hnone]
    rfl

/-- C3 witness at a concrete build. -/
theorem claim_c3_witness :
    ([cxPlain][0]? = some cxPlain) ∧ (pngOf cxPlain = none) ∧
    (∃ v w,
      (create_sut_file [cxPlain] "P" "A" st0 gId 0).variants[2 * 0]? = some v ∧
      (create_sut_file [cxPlain] "P" "A" st0 gId 0).variants[2 * 0 + 1]? = some w ∧
      v.brushPatternImageArray = [0, 0, 0, 8, 0, 0, 0, 1, 0, 0, 0, 0, 0, 0, 0, 0] ∧
      w.brushPatternImageArray = [0, 0, 0, 8, 0, 0, 0, 1, 0, 0, 0, 0, 0, 0, 0, 0]) :=
  ⟨rfl, rfl, claim_c3_theorem [cxPlain] "P" "A" st0 gId 0 0 cxPlain rfl rfl⟩

/-- C1 counterexample: on a concrete build of one brush with image data, the
BrushPatternImageArray rows are not the little-endian layout of section 4.6. -/
theorem claim_c1_counterexample :
    ¬ ((create_sut_file [cxImg] "P" "A" st0 gId 0).variants.map
        (fun v => v.brushPatternImageArray) =
      [specPatternArrayLE "A" (materialUuidAt [cxImg] gId 0) [1, 2, 3],
       specPatternArrayLE "A" (materialUuidAt [cxImg] gId 0) [1, 2, 3]]) := by
  decide

/-- C1 (corrected): for every brush with image data, the
BrushPatternImageArray on both of its Variant rows is the 16-byte header of
four BIG-endian u32s (8, 1, data length, 0x84), the UTF-16LE material
reference with two-byte terminator, two BIG-endian flag words 2 and 0x14, the
UTF-16LE display name with two-byte terminator, then the raw PNG bytes, with
data length the byte length of everything after the header. -/
theorem claim_c1_theorem (brushes : List Brush) (p a : String) (st : Settings)
    (g : Rng) (clock i : Nat) (b : Brush) (png : List Nat)
    (hb : brushes[i]? = some b) (hpng : pngOf b = some png) :
    ∃ v w,
      (create_sut_file brushes p a st g clock).variants[2 * i]? = some v ∧
      (create_sut_file brushes p a st g clock).variants[2 * i + 1]? = some w ∧
      v.brushPatternImageArray = patternArrayBE b.name (materialUuidAt brushes g i) png ∧
      w.brushPatternImageArray = patternArrayBE b.name (materialUuidAt brushes g i) png := by
  rw [create_variants]
  obtain ⟨h1, h2⟩ := segVariants_getElem st brushes (rngDrop g 16) 1000 i b hb
  refine ⟨_, _, h1, h2, ?_, ?_⟩ <;>
  · show encode_brush_pattern_array b.name
      (materialUuidOf b (rngAt brushes (rngDrop g 16) i)) (pngOf b) = _
    rw [materialUuidOf, hpng]
    show encode_brush_pattern_array b.name
      (some (materialUuidAt brushes g i)) (some png) = _
    exact encode_brush_pattern_array_some _ _ _
      (generate_material_uuid_ne_empty _) (pngOf_ne_nil hpng)

/-- C1 witness at a concrete build. -/
theorem claim_c1_witness :
    ([cxImg][0]? = some cxImg) ∧ (pngOf cxImg = some [1, 2, 3]) ∧
    (∃ v w,
      (create_sut_file [cxImg] "P" "A" st0 gId 0).variants[2 * 0]? = some v ∧
      (create_sut_file [cxImg] "P" "A" st0 gId 0).variants[2 * 0 + 1]? = some w ∧
      v.brushPatternImageArray =
        patternArrayBE cxImg.name (materialUuidAt [cxImg] gId 0) [1, 2, 3] ∧
      w.brushPatternImageArray =
        patternArrayBE cxImg.name (materialUuidAt [cxImg] gId 0) [1, 2, 3]) :=
  ⟨rfl, rfl, claim_c1_theorem [cxImg] "P" "A" st0 gId 0 0 cxImg [1, 2, 3] rfl rfl⟩

/-- C4 counterexample: in a concrete one-brush build the terminal brush node's
NodeNextUuid is NULL, not 16 zero bytes as claimed. -/
theorem claim_c4_counterexample :
    ¬ ((create_sut_file [cxPlain] "P" "A" st0 gId 0).nodes[1]?.map
        (fun n => n.nodeNextUuid) = some (some (List.replicate 16 0))) := by
  decide

/-- C4 (corrected): with at least one brush and pairwise distinct minted node
UUIDs, the brush Node rows chain in input order - each non-terminal row's
NodeNextUuid is the next row's NodeUuid - and the terminal row's NodeNextUuid
is NULL (not 16 zero bytes). -/
theorem claim_c4_theorem (brushes : List Brush) (p a : String) (st : Settings)
    (g : Rng) (clock : Nat) (hne : brushes ≠ [])
    (hnodup : (allNodeUuids brushes g).Nodup) :
    (∀ i, i + 1 < brushes.length →
      ∃ n m, (create_sut_file brushes p a st g clock).nodes[i + 1]? = some n ∧
        (create_sut_file brushes p a st g clock).nodes[i + 2]? = some m ∧
        n.nodeNextUuid = some m.nodeUuid) ∧
    (∃ last, (create_sut_file brushes p a st g clock).nodes[brushes.length]? = some last ∧
      last.nodeNextUuid = none) := by
  rw [create_nodes brushes p a st g clock hnodup]
  constructor
  · intro i hi
    obtain ⟨n, m, h1, h2, h3⟩ := segNodes_chain brushes (rngDrop g 16) 1000 i hi
    refine ⟨n, m, ?_, ?_, h3⟩
    · rw [List.getElem?_cons_succ]
      exact h1
    · rw [show i + 2 = (i + 1) + 1 from rfl, List.getElem?_cons_succ]
      exact h2
  · obtain ⟨n, h1, h2⟩ := segNodes_last brushes (rngDrop g 16) 1000 hne
    refine ⟨n, ?_, h2⟩
    obtain ⟨b0, rest, rfl⟩ := List.exists_cons_of_ne_nil hne
    rw [List.length_cons, List.getElem?_cons_succ]
    simpa using h1

/-- C4 witness on a concrete two-brush build. -/
theorem claim_c4_witness :
    ([cxPlain, cxPlain2] ≠ ([] : List Brush)) ∧
    (allNodeUuids [cxPlain, cxPlain2] gId).Nodup ∧
    ((∀ i, i + 1 < ([cxPlain, cxPlain2] : List Brush).length →
      ∃ n m, (create_sut_file [cxPlain, cxPlain2] "P" "A" st0 gId 0).nodes[i + 1]? = some n ∧
        (create_sut_file [cxPlain, cxPlain2] "P" "A" st0 gId 0).nodes[i + 2]? = some m ∧
        n.nodeNextUuid = some m.nodeUuid) ∧
    (∃ last, (create_sut_file [cxPlain, cxPlain2] "P" "A" st0 gId 0).nodes[
        ([cxPlain, cxPlain2] : List Brush).length]? = some last ∧
      last.nodeNextUuid = none)) :=
  ⟨by decide, by decide,
    claim_c4_theorem [cxPlain, cxPlain2] "P" "A" st0 gId 0 (by decide) (by decide)⟩

/-- C6: the allocator starts at 1000 and pre-increments twice per brush, so
for every build Manager.MaxVariantID is the last allocated id 1000+2n, in
particular 1000 for an empty build, and every 0-based brush i gets
NodeVariantID 1001+2i and NodeInitVariantID 1002+2i, with two distinct
Variant rows carrying exactly those IDs. -/
theorem claim_c6_theorem (brushes : List Brush) (p a : String) (st : Settings)
    (g : Rng) (clock : Nat) :
    (create_sut_file brushes p a st g clock).manager.maxVariantID =
      1000 + 2 * brushes.length ∧
    (brushes = [] →
      (create_sut_file brushes p a st g clock).manager.maxVariantID = 1000) ∧
    (∀ i b, brushes[i]? = some b →
      ((create_sut_file brushes p a st g clock).nodes.map nodeIds)[i + 1]? =
        some (b.name, some (1001 + 2 * i), some (1002 + 2 * i)) ∧
      ∃ v w,
        (create_sut_file brushes p a st g clock).variants[2 * i]? = some v ∧
        (create_sut_file brushes p a st g clock).variants[2 * i + 1]? = some w ∧
        v.variantID = 1001 + 2 * i ∧ w.variantID = 1002 + 2 * i ∧
        v.variantID ≠ w.variantID) := by
  refine ⟨?_, ?_, ?_⟩
  · rw [create_manager]
  · intro he
    subst he
    rw [create_manager]
    rfl
  · intro i b hb
    constructor
    · rw [create_nodes_ids, List.getElem?_cons_succ,
        segNodeIds_getElem brushes 1000 i b hb]
      have e1 : 1000 + 2 * i + 1 = 1001 + 2 * i := by ring
      have e2 : 1000 + 2 * i + 2 = 1002 + 2 * i := by ring
      rw [e1, e2]
    · rw [create_variants]
      obtain ⟨h1, h2⟩ := segVariants_getElem st brushes (rngDrop g 16) 1000 i b hb
      refine ⟨_, _, h1, h2, ?_, ?_, ?_⟩
      · show 1000 + 2 * i + 1 = 1001 + 2 * i
        ring
      · show 1000 + 2 * i + 2 = 1002 + 2 * i
        ring
      · show 1000 + 2 * i + 1 ≠ 1000 + 2 * i + 2
        omega

/-- C6 witness: a concrete one-brush build yields MaxVariantID 1002 and brush
IDs 1001 and 1002, and a concrete empty build yields MaxVariantID 1000. -/
theorem claim_c6_witness :
    (create_sut_file [cxPlain] "P" "A" st0 gId 0).manager.maxVariantID =
      1000 + 2 * ([cxPlain] : List Brush).length ∧
    (([cxPlain] : List Brush)[0]? = some cxPlain) ∧
    (((create_sut_file [cxPlain] "P" "A" st0 gId 0).nodes.map nodeIds)[0 + 1]? =
      some (cxPlain.name, some (1001 + 2 * 0), some (1002 + 2 * 0)) ∧
    ∃ v w,
      (create_sut_file [cxPlain] "P" "A" st0 gId 0).variants[2 * 0]? = some v ∧
      (create_sut_file [cxPlain] "P" "A" st0 gId 0).variants[2 * 0 + 1]? = some w ∧
      v.variantID = 1001 + 2 * 0 ∧ w.variantID = 1002 + 2 * 0 ∧
      v.variantID ≠ w.variantID) ∧
    (create_sut_file ([] : List Brush) "P" "A" st0 gId 0).manager.maxVariantID = 1000 :=
  ⟨(claim_c6_theorem [cxPlain] "P" "A" st0 gId 0).1,
   rfl,
   (claim_c6_theorem [cxPlain] "P" "A" st0 gId 0).2.2 0 cxPlain rfl,
   (claim_c6_theorem ([] : List Brush) "P" "A" st0 gId 0).2.1 rfl⟩

/-- C8: each pressure-effector column is NULL exactly when its flag is off or
no curve is given; when on, the BLOB is u32 LE 1 (enabled), u32 LE 0 (mode),
u32 LE N with N at most 10, then the N pairs as f32 LE, the default curve
being (0,0),(1,1). -/
theorem claim_c8_theorem (brushes : List Brush) (p a : String) (st : Settings)
    (g : Rng) (clock i : Nat) (b : Brush) (hb : brushes[i]? = some b) :
    (∃ v w,
      (create_sut_file brushes p a st g clock).variants[2 * i]? = some v ∧
      (create_sut_file brushes p a st g clock).variants[2 * i + 1]? = some w ∧
      v.brushSizeEffector =
        (if st.sizePressure then some defaultEffectorBlob else none) ∧
      v.brushFlowEffector =
        (if st.opacityPressure then some defaultEffectorBlob else none) ∧
      w.brushSizeEffector = v.brushSizeEffector ∧
      w.brushFlowEffector = v.brushFlowEffector) ∧
    (∀ (en : Bool) (curve : List (F32 × F32)),
      encode_effector_blob en curve = none ↔ (en = false ∨ curve = [])) ∧
    (∀ curve : List (F32 × F32), curve ≠ [] →
      encode_effector_blob true curve =
        some (u32le 1 ++ u32le 0 ++ u32le (curve.take 10).length ++
          ((curve.take 10).map fun q => f32le q.1 ++ f32le q.2).flatten) ∧
      (curve.take 10).length ≤ 10) := by
  refine ⟨?_, encode_effector_none_iff, ?_⟩
  · rw [create_variants]
    obtain ⟨h1, h2⟩ := segVariants_getElem st brushes (rngDrop g 16) 1000 i b hb
    refine ⟨_, _, h1, h2, ?_, ?_, rfl, rfl⟩
    · show encode_effector_blob st.sizePressure default_curve = _
      rw [encode_effector_default]
    · show encode_effector_blob st.opacityPressure default_curve = _
      rw [encode_effector_default]
  · intro curve hc
    refine ⟨encode_effector_some curve hc, ?_⟩
    rw [List.length_take]
    omega

/-- C8 witness on a concrete build with both pressure flags on. -/
theorem claim_c8_witness :
    (([cxPlain] : List Brush)[0]? = some cxPlain) ∧
    ((∃ v w,
      (create_sut_file [cxPlain] "P" "A" stPressure gId 0).variants[2 * 0]? = some v ∧
      (create_sut_file [cxPlain] "P" "A" stPressure gId 0).variants[2 * 0 + 1]? = some w ∧
      v.brushSizeEffector =
        (if stPressure.sizePressure then some defaultEffectorBlob else none) ∧
      v.brushFlowEffector =
        (if stPressure.opacityPressure then some defaultEffectorBlob else none) ∧
      w.brushSizeEffector = v.brushSizeEffector ∧
      w.brushFlowEffector = v.brushFlowEffector) ∧
    (∀ (en : Bool) (curve : List (F32 × F32)),
      encode_effector_blob en curve = none ↔ (en = false ∨ curve = [])) ∧
    (∀ curve : List (F32 × F32), curve ≠ [] →
      encode_effector_blob true curve =
        some (u32le 1 ++ u32le 0 ++ u32le (curve.take 10).length ++
          ((curve.take 10).map fun q => f32le q.1 ++ f32le q.2).flatten) ∧
      (curve.take 10).length ≤ 10)) :=
  ⟨rfl, claim_c8_theorem [cxPlain] "P" "A" stPressure gId 0 0 cxPlain rfl⟩

/-- C5: for every brush with image data (assuming the minted material UUID
strings are pairwise distinct), exactly one MaterialFile row is inserted, with
InstallFolder 0, OriginalPath the material path of its UUID, CatalogPath the
catalog path, MaterialUuid NULL, and the same dashed UUID string appears
UTF-16LE-encoded inside the BrushPatternImageArray of both of that brush's
Variant rows. -/
theorem claim_c5_theorem (brushes : List Brush) (p a : String) (st : Settings)
    (g : Rng) (clock i : Nat) (b : Brush) (png : List Nat)
    (hb : brushes[i]? = some b) (hpng : pngOf b = some png)
    (hnodup : (materialUuidsOf brushes (rngDrop g 16)).Nodup) :
    ∃ m,
      (create_sut_file brushes p a st g clock).materialFiles[matIdx brushes i]? = some m ∧
      m.installFolder = 0 ∧
      m.originalPath = pathOf (materialUuidAt brushes g i) ∧
      m.catalogPath = ".:" ++ materialUuidAt brushes g i ∧
      m.materialUuid = none ∧
      ((create_sut_file brushes p a st g clock).materialFiles.countP
        (fun mm => mm.originalPath == pathOf (materialUuidAt brushes g i))) = 1 ∧
      (∃ v w pre1 post1 pre2 post2,
        (create_sut_file brushes p a st g clock).variants[2 * i]? = some v ∧
        (create_sut_file brushes p a st g clock).variants[2 * i + 1]? = some w ∧
        v.brushPatternImageArray =
          pre1 ++ utf16le (materialUuidAt brushes g i) ++ post1 ∧
        w.brushPatternImageArray =
          pre2 ++ utf16le (materialUuidAt brushes g i) ++ post2) := by
  rw [create_materials, create_variants]
  have hrow := segMaterials_getElem clock brushes (rngDrop g 16) i b png hb hpng
  refine ⟨_, hrow, rfl, rfl, rfl, rfl, ?_, ?_⟩
  · have hmem : materialUuidAt brushes g i ∈ materialUuidsOf brushes (rngDrop g 16) :=
      List.getElem?_mem (materialUuidsOf_getElem brushes (rngDrop g 16) i b png hb hpng)
    exact segMaterials_countP clock brushes (rngDrop g 16) _ hmem hnodup
  · obtain ⟨h1, h2⟩ := segVariants_getElem st brushes (rngDrop g 16) 1000 i b hb
    obtain ⟨pre, post, hc⟩ := patternArrayBE_contains b.name (materialUuidAt brushes g i) png
    refine ⟨_, _, pre, post, pre, post, h1, h2, ?_, ?_⟩ <;>
    · show encode_brush_pattern_array b.name
        (materialUuidOf b (rngAt brushes (rngDrop g 16) i)) (pngOf b) = _
      rw [materialUuidOf, hpng]
      show encode_brush_pattern_array b.name
        (some (materialUuidAt brushes g i)) (some png) = _
      rw [encode_brush_pattern_array_some b.name (materialUuidAt brushes g i) png
        (generate_material_uuid_ne_empty _) (pngOf_ne_nil hpng)]
      exact hc

/-- C5 witness on a concrete one-image-brush build. -/
theorem claim_c5_witness :
    (([cxImg] : List Brush)[0]? = some cxImg) ∧ (pngOf cxImg = some [1, 2, 3]) ∧
    (materialUuidsOf [cxImg] (rngDrop gId 16)).Nodup ∧
    (∃ m,
      (create_sut_file [cxImg] "P" "A" st0 gId 0).materialFiles[matIdx [cxImg] 0]? = some m ∧
      m.installFolder = 0 ∧
      m.originalPath = pathOf (materialUuidAt [cxImg] gId 0) ∧
      m.catalogPath = ".:" ++ materialUuidAt [cxImg] gId 0 ∧
      m.materialUuid = none ∧
      ((create_sut_file [cxImg] "P" "A" st0 gId 0).materialFiles.countP
        (fun mm => mm.originalPath == pathOf (materialUuidAt [cxImg] gId 0))) = 1 ∧
      (∃ v w pre1 post1 pre2 post2,
        (create_sut_file [cxImg] "P" "A" st0 gId 0).variants[2 * 0]? = some v ∧
        (create_sut_file [cxImg] "P" "A" st0 gId 0).variants[2 * 0 + 1]? = some w ∧
        v.brushPatternImageArray =
          pre1 ++ utf16le (materialUuidAt [cxImg] gId 0) ++ post1 ∧
        w.brushPatternImageArray =
          pre2 ++ utf16le (materialUuidAt [cxImg] gId 0) ++ post2)) :=
  ⟨rfl, rfl, by decide,
    claim_c5_theorem [cxImg] "P" "A" st0 gId 0 0 cxImg [1, 2, 3] rfl rfl (by decide)⟩

end Sut
